import Mathlib

/-!
# Verification of the MidgetRaceCar telemetry fusion core

Shallow embedding of the sensor-fusion, calibration, logging and lap-timer
logic of `ONBOARD.ino` and `Lidar.ino`.  Machine floating point is modelled
by exact arithmetic: the fusion state lives in `ℚ` (executable), and the
transcendental magnetometer formula lives in `ℝ`.  Unsigned 32-bit
quantities are `Nat` with explicit reduction mod `2^32` where the source
relies on wraparound.
-/

namespace Telemetry

/-! ## Definitions

### Angle wrapping (`wrapAngle180`, `wrapAngle360` in `ONBOARD.ino`)

The C source wraps angles with `while` loops:

```
float wrapAngle180(float a) {
  while (a > 180.0f) a -= 360.0f;
  while (a < -180.0f) a += 360.0f;
  return a;
}
float wrapAngle360(float a) {
  while (a >= 360.0f) a -= 360.0f;
  while (a <  0.0f)   a += 360.0f;
  return a;
}
```

Each loop is embedded as a well-founded recursion; the two loops of each
function are run in sequence, exactly as in the source.  The definitions are
generic over a linear ordered field with a floor, so the same functions are
used at `ℚ` (executable fusion code) and at `ℝ` (the spec's "for every real
a" claims and the magnetometer heading). -/

/-- First loop of `wrapAngle180`: `while (a > 180.0f) a -= 360.0f;`. -/
def wrapSub180 {K : Type} [LinearOrderedField K] [FloorRing K] (a : K) : K :=
  if 180 < a then wrapSub180 (a - 360) else a
termination_by (⌈(a - 180) / 360⌉).toNat
decreasing_by
  have h : (180 : K) < a := by assumption
  have hpos : (0 : ℤ) < ⌈(a - 180) / 360⌉ := by
    rw [Int.ceil_pos]
    have : (0 : K) < a - 180 := by linarith
    positivity
  have heq : ⌈(a - 360 - 180) / 360⌉ = ⌈(a - 180) / 360⌉ - 1 := by
    rw [show (a - 360 - 180) / 360 = (a - 180) / 360 - 1 by ring, Int.ceil_sub_one]
  omega

/-- Second loop of `wrapAngle180`: `while (a < -180.0f) a += 360.0f;`. -/
def wrapAdd180 {K : Type} [LinearOrderedField K] [FloorRing K] (a : K) : K :=
  if a < -180 then wrapAdd180 (a + 360) else a
termination_by (⌈(-180 - a) / 360⌉).toNat
decreasing_by
  have h : a < (-180 : K) := by assumption
  have hpos : (0 : ℤ) < ⌈(-180 - a) / 360⌉ := by
    rw [Int.ceil_pos]
    have : (0 : K) < -180 - a := by linarith
    positivity
  have heq : ⌈(-180 - (a + 360)) / 360⌉ = ⌈(-180 - a) / 360⌉ - 1 := by
    rw [show (-180 - (a + 360)) / 360 = (-180 - a) / 360 - 1 by ring, Int.ceil_sub_one]
  omega

/-- `wrapAngle180` from `ONBOARD.ino`: both loops in source order. -/
def wrapAngle180 {K : Type} [LinearOrderedField K] [FloorRing K] (a : K) : K :=
  wrapAdd180 (wrapSub180 a)

/-- First loop of `wrapAngle360`: `while (a >= 360.0f) a -= 360.0f;`. -/
def wrapSub360 {K : Type} [LinearOrderedField K] [FloorRing K] (a : K) : K :=
  if 360 ≤ a then wrapSub360 (a - 360) else a
termination_by (⌈a / 360⌉).toNat
decreasing_by
  have h : (360 : K) ≤ a := by assumption
  have hpos : (0 : ℤ) < ⌈a / 360⌉ := by
    rw [Int.ceil_pos]
    have : (0 : K) < a := by linarith
    positivity
  have heq : ⌈(a - 360) / 360⌉ = ⌈a / 360⌉ - 1 := by
    rw [show (a - 360) / 360 = a / 360 - 1 by ring, Int.ceil_sub_one]
  omega

/-- Second loop of `wrapAngle360`: `while (a < 0.0f) a += 360.0f;`. -/
def wrapAdd360 {K : Type} [LinearOrderedField K] [FloorRing K] (a : K) : K :=
  if a < 0 then wrapAdd360 (a + 360) else a
termination_by (⌈-a / 360⌉).toNat
decreasing_by
  have h : a < (0 : K) := by assumption
  have hpos : (0 : ℤ) < ⌈-a / 360⌉ := by
    rw [Int.ceil_pos]
    have : (0 : K) < -a := by linarith
    positivity
  have heq : ⌈-(a + 360) / 360⌉ = ⌈-a / 360⌉ - 1 := by
    rw [show -(a + 360) / 360 = -a / 360 - 1 by ring, Int.ceil_sub_one]
  omega

/-- `wrapAngle360` from `ONBOARD.ino`: both loops in source order. -/
def wrapAngle360 {K : Type} [LinearOrderedField K] [FloorRing K] (a : K) : K :=
  wrapAdd360 (wrapSub360 a)

/-! ### Fusion thresholds and other constants (`ONBOARD.ino` globals) -/

def GPS_SPEED_INIT_MPH : ℚ := 5
def GPS_SPEED_MIN_MPH : ℚ := 12
def GPS_LAT_ACC_THRESH_G : ℚ := 0.15
def GPS_YAWRATE_THRESH_DPS : ℚ := 25
def GPS_CORR_GAIN : ℚ := 0.15
def accelAlpha : ℚ := 0.2
def compAlpha : ℚ := 0.98
def magDeclinationDeg : ℝ := 0

/-! ### dt computation (`loop`, lines 401–404)

```
float dt = (nowMicros - lastUpdateMicros) / 1e6f;
if (dt <= 0.0f || dt > 0.1f) dt = 0.01f;
```
-/

/-- The clamp applied to the measured elapsed time before any integration. -/
def clampDt (dt : ℚ) : ℚ :=
  if dt ≤ 0 ∨ 0.1 < dt then 0.01 else dt

/-! ### IMU calibration (`autoCalibrateIMU`, `readMPU`)

The calibration loop reads `samples` raw samples, accumulates per-axis sums
and divides by the sample count; the Z accel mean gets 1 g subtracted.  The
list argument stands for the `samples` raw reads of the averaging window
(the 50-sample settle period is discarded by the source before this window
and does not enter the sums). -/

/-- One raw (uncalibrated) IMU sample, in g and deg/s. -/
structure RawSample where
  ax : ℚ
  ay : ℚ
  az : ℚ
  gx : ℚ
  gy : ℚ
  gz : ℚ
deriving DecidableEq

/-- The six biases computed by `autoCalibrateIMU`. -/
structure CalibrationOffsets where
  ax_bias : ℚ
  ay_bias : ℚ
  az_bias : ℚ
  gx_bias : ℚ
  gy_bias : ℚ
  gz_bias : ℚ
deriving DecidableEq

/-- `autoCalibrateIMU`: per-axis arithmetic means of the sampled window,
with `1.0f` subtracted from the Z-accel mean (`az_bias = (sum_az / samples) - 1.0f`). -/
def autoCalibrateIMU (l : List RawSample) : CalibrationOffsets :=
  let n : ℚ := l.length
  { ax_bias := (l.map RawSample.ax).sum / n
    ay_bias := (l.map RawSample.ay).sum / n
    az_bias := (l.map RawSample.az).sum / n - 1
    gx_bias := (l.map RawSample.gx).sum / n
    gy_bias := (l.map RawSample.gy).sum / n
    gz_bias := (l.map RawSample.gz).sum / n }

/-- The per-axis means of a calibration window (the values the biases are
derived from; used to state the bias-subtraction property). -/
def meanSample (l : List RawSample) : RawSample :=
  let n : ℚ := l.length
  { ax := (l.map RawSample.ax).sum / n
    ay := (l.map RawSample.ay).sum / n
    az := (l.map RawSample.az).sum / n
    gx := (l.map RawSample.gx).sum / n
    gy := (l.map RawSample.gy).sum / n
    gz := (l.map RawSample.gz).sum / n }

/-- Bias subtraction performed by `readMPU` on every raw read:
each bias is subtracted from the corresponding raw axis. -/
def applyOffsets (c : CalibrationOffsets) (r : RawSample) : RawSample :=
  { ax := r.ax - c.ax_bias
    ay := r.ay - c.ay_bias
    az := r.az - c.az_bias
    gx := r.gx - c.gx_bias
    gy := r.gy - c.gy_bias
    gz := r.gz - c.gz_bias }

/-! ### Low-dynamic gate and roll/pitch complementary filter
(`loop`, lines 415–435)

```
float acc_norm   = sqrtf(ax_lpf*ax_lpf + ay_lpf*ay_lpf + az_lpf*az_lpf);
bool  low_dynamic = fabs(acc_norm - 1.0f) < 0.15f;
...
if (!rp_initialized) { roll_f = roll_acc; pitch_f = pitch_acc; rp_initialized = true; }
else {
  float roll_gyro  = roll_f  + gx_deg * dt;
  float pitch_gyro = pitch_f + gy_deg * dt;
  if (low_dynamic) {
    roll_f  = compAlpha * roll_gyro  + (1.0f - compAlpha) * roll_acc;
    pitch_f = compAlpha * pitch_gyro + (1.0f - compAlpha) * pitch_acc;
  } else { roll_f = roll_gyro; pitch_f = pitch_gyro; }
}
```

The source condition is `|sqrt s − 1| < 0.15` with `s` the squared norm of
the filtered accel vector.  An exact square root does not exist inside `ℚ`,
so the executable flag is the equivalent squared condition
`0.7225 < s < 1.3225` (`0.7225 = 0.85²`, `1.3225 = 1.15²`); the theorem
`lowDynamicFlag_iff_sqrt` proves it equal to the source's square-root
formulation over `ℝ`. -/

/-- `low_dynamic` flag of the loop, as an executable predicate on the
filtered accel vector (squared form of `fabs(sqrtf(s) - 1.0f) < 0.15f`). -/
def lowDynamicFlag (ax ay az : ℚ) : Bool :=
  let s := ax * ax + ay * ay + az * az
  decide ((0.7225 : ℚ) < s ∧ s < (1.3225 : ℚ))

/-- Roll/pitch filter state (`rp_initialized`, `roll_f`, `pitch_f`). -/
structure RPState where
  rp_initialized : Bool
  roll_f : ℚ
  pitch_f : ℚ
deriving DecidableEq

/-- One roll/pitch update of `loop` (lines 401–435): clamp the measured dt,
then either seed from the accel tilt (first iteration) or integrate the gyro
and blend with the accel tilt when `low_dynamic` holds.  `roll_acc` and
`pitch_acc` are the Tilt Estimator outputs (`getAccelRP`), taken as inputs
here. -/
def rpUpdate (s : RPState) (ax_lpf ay_lpf az_lpf roll_acc pitch_acc gx_deg gy_deg dt_meas : ℚ) :
    RPState :=
  let dt := clampDt dt_meas
  if s.rp_initialized = false then
    { rp_initialized := true, roll_f := roll_acc, pitch_f := pitch_acc }
  else
    let roll_gyro := s.roll_f + gx_deg * dt
    let pitch_gyro := s.pitch_f + gy_deg * dt
    if lowDynamicFlag ax_lpf ay_lpf az_lpf then
      { rp_initialized := true
        roll_f := compAlpha * roll_gyro + (1 - compAlpha) * roll_acc
        pitch_f := compAlpha * pitch_gyro + (1 - compAlpha) * pitch_acc }
    else
      { rp_initialized := true, roll_f := roll_gyro, pitch_f := pitch_gyro }

/-! ### Yaw fusion (`loop`, lines 445–483)

Per-iteration order, as in the source: clamp dt, wrap the GPS course,
integrate the gyro, snap-initialize once, default to gyro-only, then apply
the four-gate GPS correction.  (The snap's store to `yaw_fused` is
immediately overwritten by the unconditional `yaw_fused = yaw_gyro` default
at line 466, so it is not modelled separately.) -/

/-- Per-iteration inputs of the yaw fusion: gyro Z rate, measured dt, the
GPS course/speed with validity, and the filtered lateral acceleration. -/
structure YawIn where
  gz_deg : ℚ
  dt_meas : ℚ
  gpsCourseValid : Bool
  gps_course_deg : ℚ
  spd_mph : ℚ
  ay_lpf : ℚ

/-- Persistent yaw fusion state (`yaw_gyro`, `yaw_fused`, `yaw_initialized`). -/
structure YawState where
  yaw_gyro : ℚ
  yaw_fused : ℚ
  yaw_initialized : Bool
deriving DecidableEq

/-- One yaw-fusion iteration; returns the next state and the `yaw_mode`
byte logged this cycle (0 = gyro-only, 1 = GPS-corrected). -/
def yawStep (s : YawState) (i : YawIn) : YawState × Nat :=
  let dt := clampDt i.dt_meas
  let course := if i.gpsCourseValid = true then i.gps_course_deg else 0
  let yaw_gps := wrapAngle360 course
  let yg0 := wrapAngle360 (s.yaw_gyro + i.gz_deg * dt)
  let p :=
    if s.yaw_initialized = false ∧ i.gpsCourseValid = true ∧ GPS_SPEED_INIT_MPH < i.spd_mph then
      (yaw_gps, true)
    else
      (yg0, s.yaw_initialized)
  let useGPS := p.2 = true ∧ i.gpsCourseValid = true ∧ GPS_SPEED_MIN_MPH < i.spd_mph ∧
      |i.ay_lpf| < GPS_LAT_ACC_THRESH_G ∧ |i.gz_deg| < GPS_YAWRATE_THRESH_DPS
  if useGPS then
    ({ yaw_gyro := p.1
       yaw_fused := wrapAngle360 (p.1 + GPS_CORR_GAIN * wrapAngle180 (yaw_gps - p.1))
       yaw_initialized := p.2 }, 1)
  else
    ({ yaw_gyro := p.1, yaw_fused := p.1, yaw_initialized := p.2 }, 0)

/-- Iterate `yawStep` over a list of per-loop inputs. -/
def runYaw (s : YawState) : List YawIn → YawState
  | [] => s
  | i :: rest => runYaw (yawStep s i).1 rest

/-! ### Magnetometer heading (`readMag`, `computeMagYawDeg`, `loop` 437–443)

`readMag` aborts on an I2C error (`Wire.endTransmission` nonzero) or a short
read (`Wire.requestFrom` returning fewer than 6 bytes); otherwise it
assembles three int16 values and applies the (identity, in this sketch)
mag calibration.  The loop initializes `yaw_mag` to `0.0f` each cycle and
only overwrites it when the read succeeded. -/

def mx_bias : ℚ := 0
def my_bias : ℚ := 0
def mz_bias : ℚ := 0
def mx_scale : ℚ := 1
def my_scale : ℚ := 1
def mz_scale : ℚ := 1

/-- The observable outcome of the magnetometer I2C transaction. -/
structure MagBusRead where
  endTransmissionErr : Nat
  bytesReturned : Nat
  rawX : Int
  rawY : Int
  rawZ : Int

/-- `readMag`: `none` mirrors the `return false` paths (bus error, short
read); `some` carries the calibrated field vector. -/
def readMag (b : MagBusRead) : Option (ℚ × ℚ × ℚ) :=
  if b.endTransmissionErr ≠ 0 then none
  else if b.bytesReturned ≠ 6 then none
  else some (((b.rawX : ℚ) - mx_bias) * mx_scale,
             ((b.rawY : ℚ) - my_bias) * my_scale,
             ((b.rawZ : ℚ) - mz_bias) * mz_scale)

/-- `atan2f(y, x)` as the argument of the complex number `x + y·i`. -/
noncomputable def atan2 (y x : ℝ) : ℝ := Complex.arg ⟨x, y⟩

/-- `computeMagYawDeg`: tilt compensation of the magnetic field vector into
the horizontal plane, heading from `atan2f(-my2, mx2)` in degrees, plus the
declination, wrapped to `[0, 360)`.  (`ℝ` because of the transcendental
functions; exact-real, like the rest of the embedding.) -/
noncomputable def computeMagYawDeg (roll_deg pitch_deg mx my mz : ℝ) : ℝ :=
  let roll := roll_deg * Real.pi / 180
  let pitch := pitch_deg * Real.pi / 180
  let mx2 := mx * Real.cos pitch + mz * Real.sin pitch
  let my2 := mx * Real.sin roll * Real.sin pitch + my * Real.cos roll
    - mz * Real.sin roll * Real.cos pitch
  wrapAngle360 (atan2 (-my2) mx2 * 180 / Real.pi + magDeclinationDeg)

/-- The `yaw_mag` value of one loop cycle (lines 437–443): `0.0f` when the
read failed, the tilt-compensated heading otherwise. -/
noncomputable def magYawCycle (b : MagBusRead) (roll_f pitch_f : ℝ) : ℝ :=
  match readMag b with
  | none => 0
  | some (mx, my, mz) => computeMagYawDeg roll_f pitch_f (mx : ℝ) (my : ℝ) (mz : ℝ)

/-! ### CSV logging (`writeCSVHeader`, `loop` lines 542–571)

A printed cell is either an unsigned integer (`print` on an integral type)
or a fixed-point number printed with a stated number of decimal places
(`print(x, k)`).  The row is the exact sequence of `logFile.print` calls of
one 25 Hz logging block. -/

/-- One printed CSV cell: an integer, or a value with a decimal precision. -/
inductive CsvCell where
  | nat (v : Nat)
  | fixed (v : ℚ) (decimals : Nat)
deriving DecidableEq

/-- Snapshot of the loop-local values written to one CSV row. -/
structure LogRecord where
  time_ms : Nat
  ax_lpf : ℚ
  ay_lpf : ℚ
  az_lpf : ℚ
  roll_f : ℚ
  pitch_f : ℚ
  yaw_fused : ℚ
  yaw_gyro : ℚ
  yaw_mag : ℚ
  yaw_gps : ℚ
  lat : ℚ
  lon : ℚ
  spd_mph : ℚ
  yaw_mode : Nat
  tach_pulses : Nat
  tach_minDtUs : Nat
  throttle_pct : ℚ

/-- The header line written by `writeCSVHeader` (17 column names). -/
def csvHeader : List String :=
  ["time_ms", "ax", "ay", "az", "roll", "pitch",
   "yaw_fused", "yaw_gyro", "yaw_mag", "yaw_gps",
   "lat", "lon", "spd_mph", "yaw_mode",
   "tach_pulses", "tach_min_dt_us", "throttle_pct"]

/-- The cells of one logged row, in the order and with the precisions of the
`logFile.print` sequence at lines 543–568 (`0xFFFFFFFF` in the min-dt slot
is replaced by the `0` "no pulses" sentinel). -/
def csvRow (r : LogRecord) : List CsvCell :=
  [CsvCell.nat r.time_ms,
   CsvCell.fixed r.ax_lpf 3, CsvCell.fixed r.ay_lpf 3, CsvCell.fixed r.az_lpf 3,
   CsvCell.fixed r.roll_f 1, CsvCell.fixed r.pitch_f 1,
   CsvCell.fixed r.yaw_fused 1, CsvCell.fixed r.yaw_gyro 1,
   CsvCell.fixed r.yaw_mag 1, CsvCell.fixed r.yaw_gps 1,
   CsvCell.fixed r.lat 6, CsvCell.fixed r.lon 6,
   CsvCell.fixed r.spd_mph 1,
   CsvCell.nat r.yaw_mode,
   CsvCell.nat r.tach_pulses,
   CsvCell.nat (if r.tach_minDtUs = 4294967295 then 0 else r.tach_minDtUs),
   CsvCell.fixed r.throttle_pct 1]

/-! ### Lap timer (`Lidar.ino`: `updateLapLogic`, `logLap`)

`millis()` timestamps are 32-bit unsigned; `now - lapStartMs` is their
wrapping difference.  `lapsCsv` models the rows `logLap` appends to the
current CSV (`lap_number, lap_time_ms` — the remaining columns are the
constants `lap_time_s`, `reference_cm`, `detection_threshold_cm`);
`logReady` models `sdOk && logFile`.  The web/serial side and the 20-entry
in-memory history are outside the lap-logic claims and are not modelled. -/

def detectionThreshold : Int := 30
def MIN_LAP_TIME_MS : Nat := 1000

/-- `uint32` subtraction `a - b` with wraparound. -/
def sub32 (a b : Nat) : Nat := (a % 2 ^ 32 + 2 ^ 32 - b % 2 ^ 32) % 2 ^ 32

/-- Lap-timer state touched by `updateLapLogic` and `logLap`. -/
structure LapState where
  refSet : Bool
  armed : Bool
  referenceDist : Int
  objectPresent : Bool
  lastObjectPresent : Bool
  hasStarted : Bool
  lapRunning : Bool
  lapStartMs : Nat
  lastLapMs : Nat
  lapCounter : Nat
  logReady : Bool
  lapsCsv : List (Nat × Nat)
deriving DecidableEq

/-- `logLap`: early-returns unless the SD log is available, otherwise
increments `lapCounter` and appends the `(lap_number, lap_time_ms)` row. -/
def logLap (s : LapState) (lapMs : Nat) : LapState :=
  if s.logReady = false then s
  else
    { s with lapCounter := s.lapCounter + 1
             lapsCsv := s.lapsCsv ++ [(s.lapCounter + 1, lapMs)] }

/-- `updateLapLogic dist now`: the ~500 Hz lap state machine. -/
def updateLapLogic (s : LapState) (dist : Int) (now : Nat) : LapState :=
  if s.refSet = false ∨ s.armed = false then s
  else
    let lastOP := s.objectPresent
    let newOP := decide (detectionThreshold < |dist - s.referenceDist|)
    let s1 := { s with lastObjectPresent := lastOP, objectPresent := newOP }
    if lastOP = false ∧ newOP = true then
      if s1.hasStarted = false then
        { s1 with hasStarted := true, lapRunning := true, lapStartMs := now % 2 ^ 32 }
      else
        let lapMs := sub32 now s1.lapStartMs
        if lapMs < MIN_LAP_TIME_MS then s1
        else
          let s2 := { s1 with lastLapMs := lapMs }
          let s3 := logLap s2 lapMs
          { s3 with lapStartMs := now % 2 ^ 32, lapRunning := true }
    else s1

/-! ## Theorems

### Range and idempotence facts for the wrap functions -/

theorem wrapSub180_le {K : Type} [LinearOrderedField K] [FloorRing K] (a : K) :
    wrapSub180 a ≤ 180 := by
  rw [wrapSub180.eq_def]
  split
  · exact wrapSub180_le (a - 360)
  · linarith [not_lt.mp (by assumption : ¬ (180 : K) < a)]
termination_by (⌈(a - 180) / 360⌉).toNat
decreasing_by
  have h : (180 : K) < a := by assumption
  have hpos : (0 : ℤ) < ⌈(a - 180) / 360⌉ := by
    rw [Int.ceil_pos]
    have : (0 : K) < a - 180 := by linarith
    positivity
  have heq : ⌈(a - 360 - 180) / 360⌉ = ⌈(a - 180) / 360⌉ - 1 := by
    rw [show (a - 360 - 180) / 360 = (a - 180) / 360 - 1 by ring, Int.ceil_sub_one]
  omega

theorem wrapAdd180_ge {K : Type} [LinearOrderedField K] [FloorRing K] (a : K) :
    -180 ≤ wrapAdd180 a := by
  rw [wrapAdd180.eq_def]
  split
  · exact wrapAdd180_ge (a + 360)
  · exact not_lt.mp (by assumption)
termination_by (⌈(-180 - a) / 360⌉).toNat
decreasing_by
  have h : a < (-180 : K) := by assumption
  have hpos : (0 : ℤ) < ⌈(-180 - a) / 360⌉ := by
    rw [Int.ceil_pos]
    have : (0 : K) < -180 - a := by linarith
    positivity
  have heq : ⌈(-180 - (a + 360)) / 360⌉ = ⌈(-180 - a) / 360⌉ - 1 := by
    rw [show (-180 - (a + 360)) / 360 = (-180 - a) / 360 - 1 by ring, Int.ceil_sub_one]
  omega

theorem wrapAdd180_le {K : Type} [LinearOrderedField K] [FloorRing K] (a : K)
    (h : a ≤ 180) : wrapAdd180 a ≤ 180 := by
  rw [wrapAdd180.eq_def]
  split
  · exact wrapAdd180_le (a + 360) (by linarith [(by assumption : a < (-180 : K))])
  · exact h
termination_by (⌈(-180 - a) / 360⌉).toNat
decreasing_by
  have h2 : a < (-180 : K) := by assumption
  have hpos : (0 : ℤ) < ⌈(-180 - a) / 360⌉ := by
    rw [Int.ceil_pos]
    have : (0 : K) < -180 - a := by linarith
    positivity
  have heq : ⌈(-180 - (a + 360)) / 360⌉ = ⌈(-180 - a) / 360⌉ - 1 := by
    rw [show (-180 - (a + 360)) / 360 = (-180 - a) / 360 - 1 by ring, Int.ceil_sub_one]
  omega

/-- Range of `wrapAngle180`: the closed interval `[-180, 180]` (the source
compares strictly, so `±180` are fixed points). -/
theorem wrapAngle180_mem {K : Type} [LinearOrderedField K] [FloorRing K] (a : K) :
    -180 ≤ wrapAngle180 a ∧ wrapAngle180 a ≤ 180 :=
  ⟨wrapAdd180_ge _, wrapAdd180_le _ (wrapSub180_le a)⟩

theorem wrapSub360_lt {K : Type} [LinearOrderedField K] [FloorRing K] (a : K) :
    wrapSub360 a < 360 := by
  rw [wrapSub360.eq_def]
  split
  · exact wrapSub360_lt (a - 360)
  · exact lt_of_not_le (by assumption)
termination_by (⌈a / 360⌉).toNat
decreasing_by
  have h : (360 : K) ≤ a := by assumption
  have hpos : (0 : ℤ) < ⌈a / 360⌉ := by
    rw [Int.ceil_pos]
    have : (0 : K) < a := by linarith
    positivity
  have heq : ⌈(a - 360) / 360⌉ = ⌈a / 360⌉ - 1 := by
    rw [show (a - 360) / 360 = a / 360 - 1 by ring, Int.ceil_sub_one]
  omega

theorem wrapAdd360_nonneg {K : Type} [LinearOrderedField K] [FloorRing K] (a : K) :
    0 ≤ wrapAdd360 a := by
  rw [wrapAdd360.eq_def]
  split
  · exact wrapAdd360_nonneg (a + 360)
  · exact not_lt.mp (by assumption)
termination_by (⌈-a / 360⌉).toNat
decreasing_by
  have h : a < (0 : K) := by assumption
  have hpos : (0 : ℤ) < ⌈-a / 360⌉ := by
    rw [Int.ceil_pos]
    have : (0 : K) < -a := by linarith
    positivity
  have heq : ⌈-(a + 360) / 360⌉ = ⌈-a / 360⌉ - 1 := by
    rw [show -(a + 360) / 360 = -a / 360 - 1 by ring, Int.ceil_sub_one]
  omega

theorem wrapAdd360_lt {K : Type} [LinearOrderedField K] [FloorRing K] (a : K)
    (h : a < 360) : wrapAdd360 a < 360 := by
  rw [wrapAdd360.eq_def]
  split
  · exact wrapAdd360_lt (a + 360) (by linarith [(by assumption : a < (0 : K))])
  · exact h
termination_by (⌈-a / 360⌉).toNat
decreasing_by
  have h2 : a < (0 : K) := by assumption
  have hpos : (0 : ℤ) < ⌈-a / 360⌉ := by
    rw [Int.ceil_pos]
    have : (0 : K) < -a := by linarith
    positivity
  have heq : ⌈-(a + 360) / 360⌉ = ⌈-a / 360⌉ - 1 := by
    rw [show -(a + 360) / 360 = -a / 360 - 1 by ring, Int.ceil_sub_one]
  omega

/-- Range of `wrapAngle360`: the half-open interval `[0, 360)`. -/
theorem wrapAngle360_mem {K : Type} [LinearOrderedField K] [FloorRing K] (a : K) :
    0 ≤ wrapAngle360 a ∧ wrapAngle360 a < 360 :=
  ⟨wrapAdd360_nonneg _, wrapAdd360_lt _ (wrapSub360_lt a)⟩

/-- `wrapAngle360` is the identity on `[0, 360)`. -/
theorem wrapAngle360_eq_self {K : Type} [LinearOrderedField K] [FloorRing K] (a : K)
    (h0 : 0 ≤ a) (h1 : a < 360) : wrapAngle360 a = a := by
  unfold wrapAngle360
  rw [wrapSub360.eq_def, if_neg (by linarith), wrapAdd360.eq_def, if_neg (by linarith)]

/-- `wrapAngle180` is the identity on `[-180, 180]`. -/
theorem wrapAngle180_eq_self {K : Type} [LinearOrderedField K] [FloorRing K] (a : K)
    (h0 : -180 ≤ a) (h1 : a ≤ 180) : wrapAngle180 a = a := by
  unfold wrapAngle180
  rw [wrapSub180.eq_def, if_neg (by linarith), wrapAdd180.eq_def, if_neg (by linarith)]

/-- `wrapAngle360` is idempotent. -/
theorem wrapAngle360_idem {K : Type} [LinearOrderedField K] [FloorRing K] (a : K) :
    wrapAngle360 (wrapAngle360 a) = wrapAngle360 a :=
  wrapAngle360_eq_self _ (wrapAngle360_mem a).1 (wrapAngle360_mem a).2

/-- `wrapAngle180 0 = 0` (both loop guards fail immediately). -/
theorem wrapAngle180_zero {K : Type} [LinearOrderedField K] [FloorRing K] :
    wrapAngle180 (0 : K) = 0 :=
  wrapAngle180_eq_self 0 (by norm_num) (by norm_num)

/-- The executable flag agrees with the source's square-root condition
(`0.7225 = 0.85²` and `1.3225 = 1.15²`). -/
theorem lowDynamicFlag_iff_sqrt (ax ay az : ℚ) :
    lowDynamicFlag ax ay az = true ↔
      |Real.sqrt ((ax : ℝ) ^ 2 + (ay : ℝ) ^ 2 + (az : ℝ) ^ 2) - 1| < 0.15 := by
  have hcast : ((ax * ax + ay * ay + az * az : ℚ) : ℝ)
      = (ax : ℝ) ^ 2 + (ay : ℝ) ^ 2 + (az : ℝ) ^ 2 := by push_cast; ring
  have hlo : ((0.7225 : ℚ) : ℝ) = (0.7225 : ℝ) := by norm_num
  have hhi : ((1.3225 : ℚ) : ℝ) = (1.3225 : ℝ) := by norm_num
  simp only [lowDynamicFlag, decide_eq_true_eq]
  rw [abs_sub_lt_iff]
  constructor
  · rintro ⟨h1, h2⟩
    have h1' : (0.7225 : ℝ) < (ax : ℝ) ^ 2 + (ay : ℝ) ^ 2 + (az : ℝ) ^ 2 := by
      rw [← hlo, ← hcast]
      exact (Rat.cast_lt (K := ℝ)).mpr h1
    have h2' : (ax : ℝ) ^ 2 + (ay : ℝ) ^ 2 + (az : ℝ) ^ 2 < (1.3225 : ℝ) := by
      rw [← hhi, ← hcast]
      exact (Rat.cast_lt (K := ℝ)).mpr h2
    have hlt : Real.sqrt ((ax : ℝ) ^ 2 + (ay : ℝ) ^ 2 + (az : ℝ) ^ 2) < 1.15 :=
      (Real.sqrt_lt' (by norm_num)).mpr (by nlinarith)
    have hgt : (0.85 : ℝ) < Real.sqrt ((ax : ℝ) ^ 2 + (ay : ℝ) ^ 2 + (az : ℝ) ^ 2) :=
      (Real.lt_sqrt (by norm_num)).mpr (by nlinarith)
    exact ⟨by linarith, by linarith⟩
  · rintro ⟨h1, h2⟩
    have hlt : Real.sqrt ((ax : ℝ) ^ 2 + (ay : ℝ) ^ 2 + (az : ℝ) ^ 2) < 1.15 := by linarith
    have hgt : (0.85 : ℝ) < Real.sqrt ((ax : ℝ) ^ 2 + (ay : ℝ) ^ 2 + (az : ℝ) ^ 2) := by
      linarith
    have h1' := (Real.lt_sqrt (by norm_num : (0 : ℝ) ≤ 0.85)).mp hgt
    have h2' := (Real.sqrt_lt' (by norm_num : (0 : ℝ) < 1.15)).mp hlt
    constructor
    · have hr : ((0.7225 : ℚ) : ℝ) < ((ax * ax + ay * ay + az * az : ℚ) : ℝ) := by
        rw [hlo, hcast]
        nlinarith
      exact (Rat.cast_lt (K := ℝ)).mp hr
    · have hr : ((ax * ax + ay * ay + az * az : ℚ) : ℝ) < ((1.3225 : ℚ) : ℝ) := by
        rw [hhi, hcast]
        nlinarith
      exact (Rat.cast_lt (K := ℝ)).mp hr

/-- `yawStep` never clears the initialized flag. -/
theorem yawStep_preserves_init (s : YawState) (i : YawIn)
    (h : s.yaw_initialized = true) : (yawStep s i).1.yaw_initialized = true := by
  simp only [yawStep, h, Bool.true_eq_false, false_and, if_false]
  split_ifs <;> rfl

/-! ### Claim theorems -/

/-- C4 counterexample: the claim asserts `wrap180` lands in `[-180, 180)`,
but `wrapAngle180` uses strict guards (`a > 180`, `a < -180`), so `180` is a
fixed point: `wrapAngle180 180 = 180`, which is not `< 180`. -/
theorem C4_wrap180_counterexample :
    wrapAngle180 (180 : ℝ) = 180 ∧ ¬ wrapAngle180 (180 : ℝ) < 180 := by
  have h : wrapAngle180 (180 : ℝ) = 180 :=
    wrapAngle180_eq_self 180 (by norm_num) (by norm_num)
  exact ⟨h, by rw [h]; exact lt_irrefl _⟩

/-- C4 (amended): for every real `a`, `wrapAngle360 (wrapAngle360 a) =
wrapAngle360 a` and `wrapAngle360 a ∈ [0, 360)`; and `wrapAngle180 a` lies
in the closed interval `[-180, 180]` (the right endpoint is attained, e.g.
at `a = 180`, so the interval cannot be half-open). -/
theorem C4_wrap_laws (a : ℝ) :
    wrapAngle360 (wrapAngle360 a) = wrapAngle360 a ∧
    0 ≤ wrapAngle360 a ∧ wrapAngle360 a < 360 ∧
    -180 ≤ wrapAngle180 a ∧ wrapAngle180 a ≤ 180 :=
  ⟨wrapAngle360_idem a, (wrapAngle360_mem a).1, (wrapAngle360_mem a).2,
   (wrapAngle180_mem a).1, (wrapAngle180_mem a).2⟩

/-- C5: calibrating over `n > 0` samples that are all exactly accel
`(0, 0, 1)` g and gyro `(0, 0, 0)` deg/s yields six zero biases; and in
general the biases are the per-axis means, with `1.0` subtracted from the
Z-accel mean. -/
theorem C5_calibration_correctness (n : Nat) (l : List RawSample) (hn : 0 < n) :
    autoCalibrateIMU (List.replicate n ⟨0, 0, 1, 0, 0, 0⟩) = ⟨0, 0, 0, 0, 0, 0⟩ ∧
    autoCalibrateIMU l =
      ⟨(meanSample l).ax, (meanSample l).ay, (meanSample l).az - 1,
       (meanSample l).gx, (meanSample l).gy, (meanSample l).gz⟩ := by
  constructor
  · have hn' : ((n : ℚ)) ≠ 0 := Nat.cast_ne_zero.mpr hn.ne'
    simp [autoCalibrateIMU, List.map_replicate, List.sum_replicate, nsmul_eq_mul,
      CalibrationOffsets.mk.injEq, div_self hn']
  · rfl

/-- Witness for C5 at `n = 3`. -/
theorem C5_calibration_correctness_witness :
    autoCalibrateIMU (List.replicate 3 ⟨0, 0, 1, 0, 0, 0⟩) = ⟨0, 0, 0, 0, 0, 0⟩ :=
  (C5_calibration_correctness 3 [] (by norm_num)).1

/-- C6: applying the offsets of any calibration run to a raw sample equal to
the per-axis calibration means yields the corrected sample
`(0, 0, 1, 0, 0, 0)`. -/
theorem C6_bias_subtraction (l : List RawSample) :
    applyOffsets (autoCalibrateIMU l) (meanSample l) = ⟨0, 0, 1, 0, 0, 0⟩ := by
  simp [applyOffsets, autoCalibrateIMU, meanSample, RawSample.mk.injEq]

/-- C7: the loop clamps the measured dt — a measured dt in `(0, 0.1]` is
used as-is, a non-positive or `> 0.1` s one is replaced by `0.01` s (in
particular `5.0` s becomes `0.01` s), and both the yaw-fusion and the
roll/pitch integration consume only the clamped value. -/
theorem C7_dt_clamping (dt : ℚ) (s : YawState) (i : YawIn) (r : RPState)
    (ax ay az ra pa gx gy : ℚ) :
    (0 < dt ∧ dt ≤ 0.1 → clampDt dt = dt) ∧
    (dt ≤ 0 ∨ 0.1 < dt → clampDt dt = 0.01) ∧
    clampDt 5 = 0.01 ∧
    yawStep s { i with dt_meas := 5 } = yawStep s { i with dt_meas := 0.01 } ∧
    rpUpdate r ax ay az ra pa gx gy 5 = rpUpdate r ax ay az ra pa gx gy 0.01 := by
  have h5 : clampDt (5 : ℚ) = clampDt (0.01 : ℚ) := by norm_num [clampDt]
  refine ⟨?_, ?_, by norm_num [clampDt], ?_, ?_⟩
  · rintro ⟨h1, h2⟩
    rw [clampDt, if_neg]
    push_neg
    exact ⟨h1, h2⟩
  · intro h
    rw [clampDt, if_pos h]
  · simp only [yawStep, h5]
  · simp only [rpUpdate, h5]

/-- Witness for C7: a nominal 20 ms interval is kept, a 5 s stall is
replaced by 10 ms. -/
theorem C7_dt_clamping_witness :
    clampDt 0.02 = 0.02 ∧ clampDt 5 = 0.01 := by
  have h := C7_dt_clamping (0.02 : ℚ) ⟨0, 0, false⟩ ⟨0, 0, false, 0, 0, 0⟩
    ⟨false, 0, 0⟩ 0 0 0 0 0 0 0
  exact ⟨h.1 ⟨by norm_num, by norm_num⟩, h.2.2.1⟩

/-- C2: in the running state, the low-dynamic flag holds exactly when the
filtered accel magnitude is within `0.15` g of `1` g; when it holds, each
angle is the blend `0.98·(angle_prev + rate·dt) + 0.02·angle_acc`; when it
fails, each angle is exactly `angle_prev + rate·dt` with no accel term. -/
theorem C2_rp_running_update (s : RPState) (ax ay az ra pa gx gy dtm : ℚ)
    (hinit : s.rp_initialized = true) :
    (lowDynamicFlag ax ay az = true ↔
       |Real.sqrt ((ax : ℝ) ^ 2 + (ay : ℝ) ^ 2 + (az : ℝ) ^ 2) - 1| < 0.15) ∧
    (lowDynamicFlag ax ay az = true →
       rpUpdate s ax ay az ra pa gx gy dtm =
         ⟨true, 0.98 * (s.roll_f + gx * clampDt dtm) + 0.02 * ra,
          0.98 * (s.pitch_f + gy * clampDt dtm) + 0.02 * pa⟩) ∧
    (lowDynamicFlag ax ay az = false →
       rpUpdate s ax ay az ra pa gx gy dtm =
         ⟨true, s.roll_f + gx * clampDt dtm, s.pitch_f + gy * clampDt dtm⟩) := by
  refine ⟨lowDynamicFlag_iff_sqrt ax ay az, ?_, ?_⟩
  · intro hflag
    simp [rpUpdate, hinit, hflag, compAlpha, RPState.mk.injEq]
    norm_num
  · intro hflag
    simp [rpUpdate, hinit, hflag]

/-- Witness for C2: at rest (`(0,0,1)` g) the flag holds, `√1 = 1` is within
tolerance, and one blended step from `(0,0)` with `roll_acc = 10°` gives
`roll_f = 0.2°`; with `(0,0,2)` g the flag fails and the step is pure gyro
integration. -/
theorem C2_rp_running_update_witness :
    |Real.sqrt ((0 : ℝ) ^ 2 + (0 : ℝ) ^ 2 + (1 : ℝ) ^ 2) - 1| < 0.15 ∧
    rpUpdate ⟨true, 0, 0⟩ 0 0 1 10 0 0 0 0.01 = ⟨true, 1/5, 0⟩ ∧
    rpUpdate ⟨true, 0, 0⟩ 0 0 2 10 0 3 0 0.01 = ⟨true, 3/100, 0⟩ := by
  refine ⟨?_, ?_, ?_⟩
  · simpa using (C2_rp_running_update ⟨true, 0, 0⟩ 0 0 1 10 0 0 0 0.01 rfl).1.mp
      (by simp only [lowDynamicFlag, decide_eq_true_eq]; norm_num)
  · rw [(C2_rp_running_update ⟨true, 0, 0⟩ 0 0 1 10 0 0 0 0.01 rfl).2.1
      (by simp only [lowDynamicFlag, decide_eq_true_eq]; norm_num)]
    norm_num [clampDt]
  · rw [(C2_rp_running_update ⟨true, 0, 0⟩ 0 0 2 10 0 3 0 0.01 rfl).2.2
      (by simp only [lowDynamicFlag, decide_eq_false_iff_not]; push_neg; intro h; norm_num)]
    norm_num [clampDt]

/-- C1: once yaw is initialized, this cycle's `yaw_gyro` is the wrapped gyro
integral, and an iteration where the GPS course is valid, speed exceeds
12 mph, `|ay_lpf| < 0.15` g and `|gz| < 25` deg/s produces
`yaw_fused = wrap360(yaw_gyro + 0.15·wrap180(yaw_gps − yaw_gyro))` with
`yaw_mode = 1`; if any gate fails, `yaw_fused = yaw_gyro` and `yaw_mode = 0`. -/
theorem C1_gps_gated_fusion (s : YawState) (i : YawIn)
    (hinit : s.yaw_initialized = true) :
    (yawStep s i).1.yaw_gyro = wrapAngle360 (s.yaw_gyro + i.gz_deg * clampDt i.dt_meas) ∧
    (i.gpsCourseValid = true ∧ 12 < i.spd_mph ∧ |i.ay_lpf| < 0.15 ∧ |i.gz_deg| < 25 →
       (yawStep s i).1.yaw_fused =
         wrapAngle360 ((yawStep s i).1.yaw_gyro +
           0.15 * wrapAngle180 (wrapAngle360 i.gps_course_deg - (yawStep s i).1.yaw_gyro)) ∧
       (yawStep s i).2 = 1) ∧
    (¬(i.gpsCourseValid = true ∧ 12 < i.spd_mph ∧ |i.ay_lpf| < 0.15 ∧ |i.gz_deg| < 25) →
       (yawStep s i).1.yaw_fused = (yawStep s i).1.yaw_gyro ∧ (yawStep s i).2 = 0) := by
  have hsnap : ¬(s.yaw_initialized = false ∧ i.gpsCourseValid = true ∧
      GPS_SPEED_INIT_MPH < i.spd_mph) := by
    rw [hinit]
    rintro ⟨h, -⟩
    exact Bool.noConfusion h
  refine ⟨?_, ?_, ?_⟩
  · simp only [yawStep]
    rw [if_neg hsnap]
    split_ifs <;> rfl
  · rintro ⟨hv, hs', ha', hg'⟩
    simp only [yawStep]
    rw [if_pos hv, if_neg hsnap, hinit]
    split_ifs with hgate
    · exact ⟨rfl, rfl⟩
    · exact absurd ⟨rfl, hv, hs', ha', hg'⟩ hgate
  · intro hng
    simp only [yawStep]
    rw [if_neg hsnap, hinit]
    have hgateneg : ¬((wrapAngle360 (s.yaw_gyro + i.gz_deg * clampDt i.dt_meas), true).2 = true ∧
        i.gpsCourseValid = true ∧ GPS_SPEED_MIN_MPH < i.spd_mph ∧
        |i.ay_lpf| < GPS_LAT_ACC_THRESH_G ∧ |i.gz_deg| < GPS_YAWRATE_THRESH_DPS) := by
      rintro ⟨-, hv, hs, ha, hg⟩
      exact hng ⟨hv, hs, ha, hg⟩
    rw [if_neg hgateneg]
    exact ⟨rfl, rfl⟩

/-- Witness for C1: `yaw_gyro = 100°`, `yaw_gps = 110°`, all gates true,
gives `yaw_fused = 101.5°` with `yaw_mode = 1`; the same state with speed
10 mph (below the 12 mph gate) gives `yaw_fused = yaw_gyro`, `yaw_mode = 0`. -/
theorem C1_gps_gated_fusion_witness :
    (yawStep ⟨100, 100, true⟩ ⟨0, 0.01, true, 110, 20, 0⟩).1.yaw_fused = 101.5 ∧
    (yawStep ⟨100, 100, true⟩ ⟨0, 0.01, true, 110, 20, 0⟩).2 = 1 ∧
    (yawStep ⟨100, 100, true⟩ ⟨0, 0.01, true, 110, 10, 0⟩).1.yaw_fused =
      (yawStep ⟨100, 100, true⟩ ⟨0, 0.01, true, 110, 10, 0⟩).1.yaw_gyro ∧
    (yawStep ⟨100, 100, true⟩ ⟨0, 0.01, true, 110, 10, 0⟩).2 = 0 := by
  have h := C1_gps_gated_fusion ⟨100, 100, true⟩ ⟨0, 0.01, true, 110, 20, 0⟩ rfl
  have hyg : (yawStep ⟨100, 100, true⟩ ⟨0, 0.01, true, 110, 20, 0⟩).1.yaw_gyro = 100 := by
    rw [h.1]
    show wrapAngle360 ((100 : ℚ) + 0 * clampDt 0.01) = 100
    rw [show (100 : ℚ) + 0 * clampDt 0.01 = 100 by ring]
    exact wrapAngle360_eq_self 100 (by norm_num) (by norm_num)
  have hm := h.2.1 ⟨rfl, by norm_num, by norm_num, by norm_num⟩
  have h2 := (C1_gps_gated_fusion ⟨100, 100, true⟩ ⟨0, 0.01, true, 110, 10, 0⟩ rfl).2.2
    (by rintro ⟨-, hs, -, -⟩; norm_num at hs)
  refine ⟨?_, hm.2, h2.1, h2.2⟩
  rw [hm.1, hyg]
  show wrapAngle360 ((100 : ℚ) + 0.15 * wrapAngle180 (wrapAngle360 (110 : ℚ) - 100)) = 101.5
  rw [wrapAngle360_eq_self (110 : ℚ) (by norm_num) (by norm_num),
    show (110 : ℚ) - 100 = 10 by norm_num,
    wrapAngle180_eq_self (10 : ℚ) (by norm_num) (by norm_num),
    show (100 : ℚ) + 0.15 * 10 = 101.5 by norm_num]
  exact wrapAngle360_eq_self (101.5 : ℚ) (by norm_num) (by norm_num)

/-- C3: the heading fusion leaves the uninitialized state at most once: on an
iteration with a valid GPS course and speed above 5 mph, both `yaw_gyro` and
`yaw_fused` are snapped to the (wrapped) GPS course and the flag becomes
true; without such a trigger the state stays uninitialized; and once true
the flag survives every later iteration. -/
theorem C3_yaw_init_once (s : YawState) (i : YawIn) (l : List YawIn) :
    (s.yaw_initialized = false → i.gpsCourseValid = true → 5 < i.spd_mph →
       (yawStep s i).1.yaw_initialized = true ∧
       (yawStep s i).1.yaw_gyro = wrapAngle360 i.gps_course_deg ∧
       (yawStep s i).1.yaw_fused = wrapAngle360 i.gps_course_deg) ∧
    (s.yaw_initialized = false → ¬(i.gpsCourseValid = true ∧ 5 < i.spd_mph) →
       (yawStep s i).1.yaw_initialized = false) ∧
    (s.yaw_initialized = true → (runYaw s l).yaw_initialized = true) := by
  refine ⟨?_, ?_, ?_⟩
  · intro hninit hv hs
    have hcond : s.yaw_initialized = false ∧ i.gpsCourseValid = true ∧
        GPS_SPEED_INIT_MPH < i.spd_mph := ⟨hninit, hv, hs⟩
    simp only [yawStep]
    rw [if_pos hcond, if_pos hv]
    split_ifs with hgate
    · refine ⟨rfl, rfl, ?_⟩
      show wrapAngle360 (wrapAngle360 i.gps_course_deg +
        GPS_CORR_GAIN * wrapAngle180 (wrapAngle360 i.gps_course_deg -
          wrapAngle360 i.gps_course_deg)) = wrapAngle360 i.gps_course_deg
      rw [sub_self, wrapAngle180_zero, mul_zero, add_zero, wrapAngle360_idem]
    · exact ⟨rfl, rfl, rfl⟩
  · intro hninit hng
    have hsnapneg : ¬(s.yaw_initialized = false ∧ i.gpsCourseValid = true ∧
        GPS_SPEED_INIT_MPH < i.spd_mph) := by
      rintro ⟨-, hv, hs⟩
      exact hng ⟨hv, hs⟩
    simp only [yawStep]
    rw [if_neg hsnapneg, hninit]
    rw [if_neg (fun hc => Bool.noConfusion hc.1)]
  · intro h
    induction l generalizing s with
    | nil => exact h
    | cons j rest ih => exact ih _ (yawStep_preserves_init s j h)

/-- Witness for C3: an uninitialized state with a valid 110° course at 6 mph
snaps to 110° and initializes; an initialized state stays initialized over a
further iteration. -/
theorem C3_yaw_init_once_witness :
    (yawStep ⟨0, 0, false⟩ ⟨0, 0.01, true, 110, 6, 0⟩).1.yaw_initialized = true ∧
    (yawStep ⟨0, 0, false⟩ ⟨0, 0.01, true, 110, 6, 0⟩).1.yaw_gyro = 110 ∧
    (runYaw ⟨0, 0, true⟩ [⟨0, 0.01, true, 110, 6, 0⟩]).yaw_initialized = true := by
  have h := (C3_yaw_init_once ⟨0, 0, false⟩ ⟨0, 0.01, true, 110, 6, 0⟩ []).1
    rfl rfl (by norm_num)
  have h3 := (C3_yaw_init_once ⟨0, 0, true⟩ ⟨0, 0.01, true, 110, 6, 0⟩
    [⟨0, 0.01, true, 110, 6, 0⟩]).2.2 rfl
  refine ⟨h.1, ?_, h3⟩
  rw [h.2.1]
  exact wrapAngle360_eq_self (110 : ℚ) (by norm_num) (by norm_num)

/-- C8 counterexample: the claim's record has exactly 14 fields, but the
logged row of the source has 17 cells (the extra three are `tach_pulses`,
`tach_min_dt_us` and `throttle_pct` — see the `17 columns` comments at
lines 325 and 541 of `ONBOARD.ino`). -/
theorem C8_csv_counterexample :
    (csvRow ⟨0, 0, 0, 0, 0, 0, 0, 0, 0, 0, 0, 0, 0, 0, 0, 0, 0⟩).length = 17 ∧
    ¬ (csvRow ⟨0, 0, 0, 0, 0, 0, 0, 0, 0, 0, 0, 0, 0, 0, 0, 0, 0⟩).length = 14 :=
  ⟨rfl, by decide⟩

/-- C8 (amended): every logged record starts with the claim's 14 fields, in
the claimed column order and precisions (3 decimals for accel, 1 for
angles/speed, 6 for lat/lon), and is followed by three more columns:
`tach_pulses`, `tach_min_dt_us` (with `0` as the no-pulse sentinel), and
`throttle_pct` at 1 decimal place; the header names the same 17 columns. -/
theorem C8_csv_row_format (r : LogRecord) :
    csvRow r =
      [CsvCell.nat r.time_ms,
       CsvCell.fixed r.ax_lpf 3, CsvCell.fixed r.ay_lpf 3, CsvCell.fixed r.az_lpf 3,
       CsvCell.fixed r.roll_f 1, CsvCell.fixed r.pitch_f 1,
       CsvCell.fixed r.yaw_fused 1, CsvCell.fixed r.yaw_gyro 1,
       CsvCell.fixed r.yaw_mag 1, CsvCell.fixed r.yaw_gps 1,
       CsvCell.fixed r.lat 6, CsvCell.fixed r.lon 6,
       CsvCell.fixed r.spd_mph 1, CsvCell.nat r.yaw_mode] ++
      [CsvCell.nat r.tach_pulses,
       CsvCell.nat (if r.tach_minDtUs = 4294967295 then 0 else r.tach_minDtUs),
       CsvCell.fixed r.throttle_pct 1] ∧
    csvHeader =
      ["time_ms", "ax", "ay", "az", "roll", "pitch",
       "yaw_fused", "yaw_gyro", "yaw_mag", "yaw_gps",
       "lat", "lon", "spd_mph", "yaw_mode",
       "tach_pulses", "tach_min_dt_us", "throttle_pct"] :=
  ⟨rfl, rfl⟩

/-- C9: on a failed magnetometer read (I2C error or short read) the heading
estimator is skipped and the cycle's `yaw_mag` is the `0.0f` default; on a
successful read, `yaw_mag` is the tilt-compensated `atan2(-My', Mx')`
heading in degrees plus the declination, wrapped to `[0, 360)`. -/
theorem C9_mag_heading (b : MagBusRead) (roll pitch : ℝ) :
    (b.endTransmissionErr ≠ 0 ∨ b.bytesReturned ≠ 6 → magYawCycle b roll pitch = 0) ∧
    (b.endTransmissionErr = 0 → b.bytesReturned = 6 →
       magYawCycle b roll pitch =
         wrapAngle360 (atan2
             (-((b.rawX : ℝ) * Real.sin (roll * Real.pi / 180) * Real.sin (pitch * Real.pi / 180)
                + (b.rawY : ℝ) * Real.cos (roll * Real.pi / 180)
                - (b.rawZ : ℝ) * Real.sin (roll * Real.pi / 180) * Real.cos (pitch * Real.pi / 180)))
             ((b.rawX : ℝ) * Real.cos (pitch * Real.pi / 180)
                + (b.rawZ : ℝ) * Real.sin (pitch * Real.pi / 180))
           * 180 / Real.pi + magDeclinationDeg) ∧
       0 ≤ magYawCycle b roll pitch ∧ magYawCycle b roll pitch < 360) := by
  constructor
  · intro h
    unfold magYawCycle readMag
    rcases h with h | h
    · rw [if_pos h]
    · by_cases he : b.endTransmissionErr ≠ 0
      · rw [if_pos he]
      · rw [if_neg he, if_pos h]
  · intro he hb
    have hx : (((b.rawX : ℚ) - mx_bias) * mx_scale : ℚ) = (b.rawX : ℚ) := by
      simp [mx_bias, mx_scale]
    have hy : (((b.rawY : ℚ) - my_bias) * my_scale : ℚ) = (b.rawY : ℚ) := by
      simp [my_bias, my_scale]
    have hz : (((b.rawZ : ℚ) - mz_bias) * mz_scale : ℚ) = (b.rawZ : ℚ) := by
      simp [mz_bias, mz_scale]
    have hred : magYawCycle b roll pitch =
        computeMagYawDeg roll pitch ((b.rawX : ℚ) : ℝ) ((b.rawY : ℚ) : ℝ) ((b.rawZ : ℚ) : ℝ) := by
      unfold magYawCycle readMag
      rw [if_neg (by simp [he]), if_neg (by simp [hb]), hx, hy, hz]
    have hcastX : ((b.rawX : ℚ) : ℝ) = (b.rawX : ℝ) := by push_cast; rfl
    have hcastY : ((b.rawY : ℚ) : ℝ) = (b.rawY : ℝ) := by push_cast; rfl
    have hcastZ : ((b.rawZ : ℚ) : ℝ) = (b.rawZ : ℝ) := by push_cast; rfl
    rw [hred, hcastX, hcastY, hcastZ]
    exact ⟨rfl, (wrapAngle360_mem _).1, (wrapAngle360_mem _).2⟩

/-- Witness for C9: an I2C error (`endTransmission` returning 1) leaves the
default `yaw_mag = 0`; a successful 6-byte read yields a wrapped heading,
hence a nonnegative one. -/
theorem C9_mag_heading_witness :
    magYawCycle ⟨1, 6, 0, 0, 0⟩ 0 0 = 0 ∧ 0 ≤ magYawCycle ⟨0, 6, 1, 2, 3⟩ 0 0 := by
  constructor
  · exact (C9_mag_heading ⟨1, 6, 0, 0, 0⟩ 0 0).1 (Or.inl (by norm_num))
  · exact ((C9_mag_heading ⟨0, 6, 1, 2, 3⟩ 0 0).2 rfl rfl).2.1

/-- C10: once lap timing has started, a rising-edge crossing with elapsed
time below `MIN_LAP_TIME_MS` (1000 ms) is rejected — `lapCounter`,
`lastLapMs`, `lapStartMs` and the logged laps all keep their values, so the
current lap keeps timing; a crossing at 1000 ms or more logs a lap of
duration `now − lapStartMs`, sets `lastLapMs` to that duration, increments
the lap counter, and resets `lapStartMs` to `now`. -/
theorem C10_lap_min_time (s : LapState) (dist : Int) (now : Nat)
    (href : s.refSet = true) (harm : s.armed = true) (hstart : s.hasStarted = true)
    (hlog : s.logReady = true) (hobj : s.objectPresent = false)
    (hcross : detectionThreshold < |dist - s.referenceDist|) (hnow : now < 2 ^ 32) :
    (sub32 now s.lapStartMs < MIN_LAP_TIME_MS →
       (updateLapLogic s dist now).lapCounter = s.lapCounter ∧
       (updateLapLogic s dist now).lastLapMs = s.lastLapMs ∧
       (updateLapLogic s dist now).lapStartMs = s.lapStartMs ∧
       (updateLapLogic s dist now).lapsCsv = s.lapsCsv) ∧
    (MIN_LAP_TIME_MS ≤ sub32 now s.lapStartMs →
       (updateLapLogic s dist now).lastLapMs = sub32 now s.lapStartMs ∧
       (updateLapLogic s dist now).lapStartMs = now ∧
       (updateLapLogic s dist now).lapCounter = s.lapCounter + 1 ∧
       (updateLapLogic s dist now).lapsCsv =
         s.lapsCsv ++ [(s.lapCounter + 1, sub32 now s.lapStartMs)]) := by
  have hno : ¬(s.refSet = false ∨ s.armed = false) := by
    rw [href, harm]
    rintro (h | h) <;> exact Bool.noConfusion h
  have hedge : s.objectPresent = false ∧
      decide (detectionThreshold < |dist - s.referenceDist|) = true :=
    ⟨hobj, decide_eq_true hcross⟩
  have hstarted : ¬(s.hasStarted = false) := by
    rw [hstart]
    exact Bool.noConfusion
  have hlogr : ¬(s.logReady = false) := by
    rw [hlog]
    exact Bool.noConfusion
  constructor
  · intro hlt
    simp only [updateLapLogic]
    rw [if_neg hno, if_pos hedge, if_neg hstarted, if_pos hlt]
    exact ⟨rfl, rfl, rfl, rfl⟩
  · intro hge
    simp only [updateLapLogic, logLap]
    rw [if_neg hno, if_pos hedge, if_neg hstarted, if_neg (not_lt.mpr hge),
      if_neg hlogr]
    exact ⟨rfl, Nat.mod_eq_of_lt hnow, rfl, rfl⟩

/-- Witness for C10: from a running lap started at `lapStartMs = 0` with
reference 100 cm, a crossing at distance 200 cm and `now = 500` ms is
rejected (no log, start time kept); the same crossing at `now = 1500` ms
logs lap #1 of 1500 ms and restarts timing at 1500. -/
theorem C10_lap_min_time_witness :
    (updateLapLogic ⟨true, true, 100, false, false, true, true, 0, 0, 0, true, []⟩
      200 500).lapStartMs = 0 ∧
    (updateLapLogic ⟨true, true, 100, false, false, true, true, 0, 0, 0, true, []⟩
      200 500).lapsCsv = [] ∧
    (updateLapLogic ⟨true, true, 100, false, false, true, true, 0, 0, 0, true, []⟩
      200 1500).lastLapMs = 1500 ∧
    (updateLapLogic ⟨true, true, 100, false, false, true, true, 0, 0, 0, true, []⟩
      200 1500).lapsCsv = [(1, 1500)] := by
  have h1 := C10_lap_min_time ⟨true, true, 100, false, false, true, true, 0, 0, 0, true, []⟩
    200 500 rfl rfl rfl rfl rfl (by norm_num [detectionThreshold]) (by norm_num)
  have h2 := C10_lap_min_time ⟨true, true, 100, false, false, true, true, 0, 0, 0, true, []⟩
    200 1500 rfl rfl rfl rfl rfl (by norm_num [detectionThreshold]) (by norm_num)
  obtain ⟨-, -, hc, hd⟩ := h1.1 (by norm_num [sub32, MIN_LAP_TIME_MS])
  obtain ⟨he, -, -, hh⟩ := h2.2 (by norm_num [sub32, MIN_LAP_TIME_MS])
  refine ⟨hc, hd, ?_, ?_⟩
  · rw [he]
    norm_num [sub32]
  · rw [hh]
    norm_num [sub32]

end Telemetry
